import Mathlib

/-!
Verification development for the `levels` module (a leveling/experience
feature for a chat-community bot, `src/main.py`).

The Python module is shallowly embedded: the SQLite `user_levels` table
becomes an association list of rows, configuration becomes a record,
each command handler becomes a pure state transformer returning the
response it sends together with the new module state, and Python
exceptions (a `TypeError` raised by a call) are modelled as a `raised`
response that leaves the state unchanged.  Python integers are embedded
as `Int` (they are unbounded), float arithmetic on experience
multipliers is embedded exactly as rational arithmetic, and `int(x)`
truncation is embedded as floor/ceiling toward zero.
-/

namespace Levels

/-- One row of the `user_levels` table (columns used by the module). -/
structure UserRow where
  exp : Int
  level : Int
  totalMessages : Int
  voiceTime : Int
  welcome : Int
deriving Repr, DecidableEq

/-- The row `get_user_data` creates for an unknown user: everything 0. -/
def defaultRow : UserRow := ⟨0, 0, 0, 0, 0⟩

abbrev GuildId := Nat
abbrev UserId := Nat
abbrev RoleId := Nat

/-- The `user_levels` table: rows keyed by (guild_id, user_id). -/
abbrev Db := List ((GuildId × UserId) × UserRow)

/-- Read a user row; like `get_user_data`, a missing row behaves as the
freshly inserted all-zero row. -/
def dbGet (db : Db) (g : GuildId) (u : UserId) : UserRow :=
  match db.find? (fun e => e.1 == (g, u)) with
  | some e => e.2
  | none => defaultRow

/-- Write a user row (`get_user_data`s INSERT followed by an UPDATE). -/
def dbSet (db : Db) (g : GuildId) (u : UserId) (r : UserRow) : Db :=
  match db with
  | [] => [((g, u), r)]
  | e :: rest => if e.1 == (g, u) then ((g, u), r) :: rest else e :: dbSet rest g u r

/-- `calculate_level` from the source: 0 below 75 EXP, otherwise
`int(math.sqrt(exp / 75))`, embedded exactly as the integer square root
of the floor of `exp / 75`. -/
def calculate_level (exp : Int) : Int :=
  if exp < 75 then 0 else (Nat.sqrt (exp.toNat / 75) : Int)

/-- `calculate_exp_for_level` from the source: `75 * level * level`. -/
def calculate_exp_for_level (level : Int) : Int :=
  75 * level * level

/-- The level formula as the specification states it:
`floor(sqrt(points / 75))` when `points >= 75`, else 0. -/
def levelSpec (points : Int) : Int :=
  if 75 ≤ points then (Nat.sqrt (points.toNat / 75) : Int) else 0

theorem calculate_level_eq_levelSpec (e : Int) : calculate_level e = levelSpec e := by
  unfold calculate_level levelSpec
  rcases lt_or_le e 75 with h | h
  · rw [if_pos h, if_neg (by omega)]
  · rw [if_neg (by omega), if_pos h]

/-- The spec formula indeed computes the floor of the real square root of
`points / 75`: its value `L` satisfies `75 * L ^ 2 ≤ points < 75 * (L + 1) ^ 2`.
This justifies embedding `int(math.sqrt(exp / 75))` as `Nat.sqrt (exp / 75)`. -/
theorem levelSpec_characterization (p : Int) (h : 75 ≤ p) :
    75 * levelSpec p ^ 2 ≤ p ∧ p < 75 * (levelSpec p + 1) ^ 2 := by
  unfold levelSpec
  rw [if_pos h]
  set n := p.toNat / 75 with hn
  have hp : p = (p.toNat : Int) := by omega
  constructor
  · have h1 : Nat.sqrt n ^ 2 ≤ n := Nat.sqrt_le' n
    have h2 : Nat.sqrt n ^ 2 ≤ p.toNat / 75 := h1
    have h3 : Nat.sqrt n ^ 2 * 75 ≤ p.toNat :=
      (@Nat.le_div_iff_mul_le 75 (Nat.sqrt n ^ 2) p.toNat (by norm_num)).mp h2
    rw [hp]
    nlinarith [h3]
  · have h1 : n < (Nat.sqrt n + 1) ^ 2 := by
      have := Nat.lt_succ_sqrt' n
      simpa [Nat.succ_eq_add_one] using this
    have h2 : p.toNat / 75 < (Nat.sqrt n + 1) ^ 2 := h1
    have h3 : p.toNat < (Nat.sqrt n + 1) ^ 2 * 75 :=
      (@Nat.div_lt_iff_lt_mul 75 p.toNat ((Nat.sqrt n + 1) ^ 2) (by norm_num)).mp h2
    rw [hp]
    nlinarith [h3]

/-- Claim C2: `calculate_level` is a left inverse of `calculate_exp_for_level`
at every level `n ≥ 0`. -/
theorem calculate_level_left_inverse (n : Nat) :
    calculate_level (calculate_exp_for_level (n : Int)) = n := by
  unfold calculate_level calculate_exp_for_level
  rcases Nat.eq_zero_or_pos n with h0 | hpos
  · subst h0
    norm_num
  · have hge : (75 : Int) ≤ 75 * (n : Int) * (n : Int) := by nlinarith [hpos]
    rw [if_neg (by omega)]
    have htn : (75 * (n : Int) * (n : Int)).toNat = 75 * (n * n) := by
      rw [show (75 : Int) * (n : Int) * (n : Int) = ((75 * (n * n) : Nat) : Int) by push_cast; ring]
      exact Int.toNat_natCast _
    rw [htn, Nat.mul_div_cancel_left _ (by norm_num)]
    rw [show n * n = n ^ 2 by ring, Nat.sqrt_eq' n]

/-- `ExpGainType` from the source (MESSAGE / VOICE / WELCOME). -/
inductive ExpGainType
  | message
  | voice
  | welcome
deriving Repr, DecidableEq

/-- `update_user_exp` acting on one user row, with the database already
available: `new_exp = max(0, exp + exp_gain)`, `new_level =
calculate_level(new_exp)`, and the SQL chosen by
`ExpGainType.get_update_sql` additionally bumps the counter matching the
gain type. -/
def update_user_exp (row : UserRow) (expGain : Int) (gainType : ExpGainType) : UserRow :=
  let newExp := max 0 (row.exp + expGain)
  let newLevel := calculate_level newExp
  match gainType with
  | .message => { row with exp := newExp, level := newLevel, totalMessages := row.totalMessages + 1 }
  | .voice => { row with exp := newExp, level := newLevel, voiceTime := row.voiceTime + 1 }
  | .welcome => { row with exp := newExp, level := newLevel, welcome := row.welcome + 1 }

/-- A Python dict key: the module mixes `str` keys (written by
`role_multiplier_set` and by JSON config files) and `int` keys (looked up
by `get_multiplier`); in Python these never compare equal. -/
inductive PyKey
  | str (s : String)
  | int (n : Nat)
deriving Repr, DecidableEq

/-- The `levels` config object (fields read by the embedded functions). -/
structure Config where
  expPerMessage : Int
  expPerVoiceMinute : Int
  messageCooldown : Int
  blacklistedChannels : List Nat
  roleMultipliers : List (PyKey × Rat)
  levelRewards : List (Nat × RoleId)
  removePreviousRewards : Bool
deriving Repr, DecidableEq

/-- Python `dict.get(k, default)` on the role-multiplier dict. -/
def dictGet (d : List (PyKey × Rat)) (k : PyKey) (dflt : Rat) : Rat :=
  match d.find? (fun e => e.1 == k) with
  | some e => e.2
  | none => dflt

/-- Python `dict[k] = v` on the role-multiplier dict. -/
def dictSet (d : List (PyKey × Rat)) (k : PyKey) (v : Rat) : List (PyKey × Rat) :=
  match d with
  | [] => [(k, v)]
  | e :: rest => if e.1 == k then (k, v) :: rest else e :: dictSet rest k v

/-- `get_multiplier`: `1.0` plus the sum over the roles the member holds
of `role_multipliers.get(role.id, 0.0)` — note the lookup key is the
integer role id. -/
def get_multiplier (cfg : Config) (roles : List RoleId) : Rat :=
  1 + roles.foldl (fun acc r => acc + dictGet cfg.roleMultipliers (PyKey.int r) 0) 0

/-- Python `int()` applied to an exact rational: truncation toward zero. -/
def pyInt (q : Rat) : Int :=
  if q < 0 then ⌈q⌉ else ⌊q⌋

/-- The EXP awarded for one rewarded message:
`int(exp_per_message * get_multiplier(author))`. -/
def messageExpGain (cfg : Config) (roles : List RoleId) : Int :=
  pyInt ((cfg.expPerMessage : Rat) * get_multiplier cfg roles)

/-- The per-message gain as claim C9 states it:
`int(exp_per_message * (1 + b))` for a member whose roles carry total
configured bonus `b`. -/
def claimedMessageGain (expPerMessage : Int) (bonus : Rat) : Int :=
  pyInt ((expPerMessage : Rat) * (1 + bonus))

/-- `calculate_exp_from_activity`:
`messages * exp_per_message + voice_minutes * exp_per_voice_minute`. -/
def calculate_exp_from_activity (cfg : Config) (messages voiceMinutes : Int) : Int :=
  messages * cfg.expPerMessage + voiceMinutes * cfg.expPerVoiceMinute

/-- The cog state: database readiness flag, table contents, the
`message_cooldowns` cache (user id to timestamp, in seconds), config. -/
structure ModuleState where
  dbReady : Bool
  db : Db
  cooldowns : List (UserId × Int)
  cfg : Config
deriving Repr, DecidableEq

/-- What a command invocation does visibly: a success / failure reply, an
embed reply, or an uncaught Python exception. -/
inductive CmdResponse
  | success (msg : String)
  | failure (msg : String)
  | embed
  | raised (err : String)
deriving Repr, DecidableEq

def permissionDeniedMsg : String :=
  "Tu n\x27as pas la permission d\x27utiliser cette commande."

def dbUnavailableMsg : String :=
  "Base de données non disponible."

def amountMustBePositiveMsg : String :=
  "Le montant doit être positif."

def notEnoughExpMsg : String :=
  "L\x27utilisateur n\x27a pas assez d\x27EXP."

def amountNotNegativeMsg : String :=
  "Le montant ne peut pas être négatif."

def valuesNotNegativeMsg : String :=
  "Les valeurs ne peuvent pas être négatives."

def multiplierNotNegativeMsg : String :=
  "Le multiplicateur ne peut pas être négatif."

/-- The `TypeError` Python raises when `None` is compared with `<`. -/
def noneComparisonTypeError : String :=
  "TypeError: unsupported comparison between NoneType and int"

/-- The `TypeError` Python raises for the call
`update_user_exp(member, final_exp, from_voice=True)`: `update_user_exp`
has no parameter named `from_voice`. -/
def fromVoiceTypeError : String :=
  "TypeError: update_user_exp got an unexpected keyword argument from_voice"

/-- `/xp add` (`add_exp`): admin gate, db gate, positivity gate, then
`update_user_exp(utilisateur, montant)` with the default MESSAGE gain
type, then an embed reply. -/
def add_exp (isAdmin : Bool) (g : GuildId) (u : UserId) (montant : Int)
    (s : ModuleState) : CmdResponse × ModuleState :=
  if !isAdmin then (.failure permissionDeniedMsg, s)
  else if !s.dbReady then (.failure dbUnavailableMsg, s)
  else if montant ≤ 0 then (.failure amountMustBePositiveMsg, s)
  else
    let row := dbGet s.db g u
    (.embed, { s with db := dbSet s.db g u (update_user_exp row montant .message) })

/-- `/xp remove` (`remove_exp`): as `add_exp` but rejecting when the user
holds fewer points than the amount, and applying a negative gain. -/
def remove_exp (isAdmin : Bool) (g : GuildId) (u : UserId) (montant : Int)
    (s : ModuleState) : CmdResponse × ModuleState :=
  if !isAdmin then (.failure permissionDeniedMsg, s)
  else if !s.dbReady then (.failure dbUnavailableMsg, s)
  else if montant ≤ 0 then (.failure amountMustBePositiveMsg, s)
  else
    let row := dbGet s.db g u
    if row.exp < montant then (.failure notEnoughExpMsg, s)
    else (.embed, { s with db := dbSet s.db g u (update_user_exp row (-montant) .message) })

/-- `/xp set` (`set_exp`): writes `exp = montant`,
`level = calculate_level(montant)` directly, leaving the counters alone. -/
def set_exp (isAdmin : Bool) (g : GuildId) (u : UserId) (montant : Int)
    (s : ModuleState) : CmdResponse × ModuleState :=
  if !isAdmin then (.failure permissionDeniedMsg, s)
  else if !s.dbReady then (.failure dbUnavailableMsg, s)
  else if montant < 0 then (.failure amountNotNegativeMsg, s)
  else
    let row := dbGet s.db g u
    let row2 := { row with exp := montant, level := calculate_level montant }
    (.embed, { s with db := dbSet s.db g u row2 })

/-- `/xp-set-activity` (`set_activity`).  The source checks
`if messages < 0 or temps_vocal < 0` before anything else touches the
database; in Python, comparing `None < 0` raises `TypeError`, so any
invocation with an omitted optional parameter raises there (short-circuit:
`messages` is compared first).  The later `messages is None` guard and the
defaulting of omitted values to stored values are therefore unreachable
when a parameter is omitted; when both are supplied the row is rewritten
with `exp = calculate_exp_from_activity(messages, temps_vocal)`. -/
def set_activity (isAdmin : Bool) (g : GuildId) (u : UserId)
    (messages tempsVocal : Option Int) (s : ModuleState) : CmdResponse × ModuleState :=
  if !isAdmin then (.failure permissionDeniedMsg, s)
  else if !s.dbReady then (.failure dbUnavailableMsg, s)
  else
    match messages with
    | none => (.raised noneComparisonTypeError, s)
    | some m =>
      if m < 0 then (.failure valuesNotNegativeMsg, s)
      else
        match tempsVocal with
        | none => (.raised noneComparisonTypeError, s)
        | some v =>
          if v < 0 then (.failure valuesNotNegativeMsg, s)
          else
            let row := dbGet s.db g u
            let totalExp := calculate_exp_from_activity s.cfg m v
            let row2 := { row with exp := totalExp, level := calculate_level totalExp, totalMessages := m, voiceTime := v }
            (.embed, { s with db := dbSet s.db g u row2 })

/-- `/toggle-remove-previous` (`toggle_remove_previous`): only the admin
gate — the handler never consults `db_ready`; it flips the config flag
and replies with a success message. -/
def toggle_remove_previous (isAdmin : Bool) (s : ModuleState) : CmdResponse × ModuleState :=
  if !isAdmin then (.failure permissionDeniedMsg, s)
  else
    let newVal := !s.cfg.removePreviousRewards
    let msg := if newVal
      then "La suppression des récompenses précédentes est maintenant **activée**"
      else "La suppression des récompenses précédentes est maintenant **désactivée**"
    let cfg2 := { s.cfg with removePreviousRewards := newVal }
    (.success msg, { s with cfg := cfg2 })

/-- `/xp-role-multiplier set` (`role_multiplier_set`): stores the
multiplier under the STRING key `str(role.id)` (deleting on 0). -/
def role_multiplier_set (isAdmin : Bool) (roleId : RoleId) (multiplier : Rat)
    (s : ModuleState) : CmdResponse × ModuleState :=
  if !isAdmin then (.failure permissionDeniedMsg, s)
  else if !s.dbReady then (.failure dbUnavailableMsg, s)
  else if multiplier < 0 then (.failure multiplierNotNegativeMsg, s)
  else if multiplier = 0 then
    if (s.cfg.roleMultipliers.find? (fun e => e.1 == PyKey.str (toString roleId))).isSome then
      let mults := s.cfg.roleMultipliers.filter (fun e => !(e.1 == PyKey.str (toString roleId)))
      let cfg2 := { s.cfg with roleMultipliers := mults }
      (.success "multiplicateur retiré", { s with cfg := cfg2 })
    else (.failure "pas de multiplicateur défini", s)
  else
    let mults := dictSet s.cfg.roleMultipliers (PyKey.str (toString roleId)) multiplier
    let cfg2 := { s.cfg with roleMultipliers := mults }
    (.success "multiplicateur défini", { s with cfg := cfg2 })

/-- The cooldown test of `on_message`: the author has an entry in
`message_cooldowns` and `now - entry < message_cooldown`. -/
def onCooldown (s : ModuleState) (u : UserId) (now : Int) : Bool :=
  match s.cooldowns.find? (fun e => e.1 == u) with
  | some e => decide (now - e.2 < s.cfg.messageCooldown)
  | none => false

/-- Python `dict[k] = v` on the cooldown cache. -/
def cooldownSet (d : List (UserId × Int)) (u : UserId) (t : Int) : List (UserId × Int) :=
  match d with
  | [] => [(u, t)]
  | e :: rest => if e.1 == u then (u, t) :: rest else e :: cooldownSet rest u t

/-- The `on_message` listener: bot / missing-guild gate, `db_ready` gate,
blacklist gate, cooldown gate, then
`update_user_exp(author, int(exp_per_message * multiplier))` (MESSAGE
gain) and a fresh cooldown timestamp. -/
def on_message (s : ModuleState) (authorBot : Bool) (hasGuild : Bool)
    (g : GuildId) (u : UserId) (roles : List RoleId) (channelId : Nat)
    (now : Int) : ModuleState :=
  if authorBot || !hasGuild then s
  else if !s.dbReady then s
  else if channelId ∈ s.cfg.blacklistedChannels then s
  else if onCooldown s u now then s
  else
    let finalExp := messageExpGain s.cfg roles
    let row := dbGet s.db g u
    { s with db := dbSet s.db g u (update_user_exp row finalExp .message),
             cooldowns := cooldownSet s.cooldowns u now }

/-- A member currently connected to a voice channel. -/
structure VoiceMember where
  userId : UserId
  isBot : Bool
  selfDeaf : Bool
  roles : List RoleId
deriving Repr, DecidableEq

/-- A guild voice channel and its connected members. -/
structure VoiceChannel where
  channelId : Nat
  members : List VoiceMember
deriving Repr, DecidableEq

/-- A guild as the voice task sees it. -/
structure Guild where
  guildId : GuildId
  voiceChannels : List VoiceChannel
deriving Repr, DecidableEq

/-- `active_members`: the non-bot, non-self-deafened members of a voice
channel. -/
def activeMembers (ch : VoiceChannel) : List VoiceMember :=
  ch.members.filter (fun m => !m.isBot && !m.selfDeaf)

/-- One voice channel inside `voice_exp_task`: skip blacklisted channels
and channels with fewer than two active members; otherwise the per-member
loop computes the multiplier and `final_exp` and then executes
`update_user_exp(member, final_exp, from_voice=True)` — a call that
raises `TypeError` before `update_user_exp` runs, because
`update_user_exp` has no parameter named `from_voice`.  The pair returned
is the table contents and, when the loop raised, the uncaught exception
(the surrounding `tasks.loop` machinery then aborts the whole tick). -/
def voiceChannelTick (cfg : Config) (db : Db) (ch : VoiceChannel) : Db × Option String :=
  if ch.channelId ∈ cfg.blacklistedChannels then (db, none)
  else if (activeMembers ch).length < 2 then (db, none)
  else (db, some fromVoiceTypeError)

/-- The voice channels of one guild, processed in order until a raise. -/
def voiceChannelsTick (cfg : Config) : Db → List VoiceChannel → Db × Option String
  | db, [] => (db, none)
  | db, ch :: rest =>
    match voiceChannelTick cfg db ch with
    | (db2, some e) => (db2, some e)
    | (db2, none) => voiceChannelsTick cfg db2 rest

/-- All guilds, processed in order until a raise. -/
def voiceGuildsTick (cfg : Config) : Db → List Guild → Db × Option String
  | db, [] => (db, none)
  | db, gd :: rest =>
    match voiceChannelsTick cfg db gd.voiceChannels with
    | (db2, some e) => (db2, some e)
    | (db2, none) => voiceGuildsTick cfg db2 rest

/-- One tick of `voice_exp_task`. -/
def voice_exp_task (s : ModuleState) (guilds : List Guild) : Db × Option String :=
  if !s.dbReady then (s.db, none)
  else voiceGuildsTick s.cfg s.db guilds

/-- `update_rewards`: the configured rewards whose level threshold is at
most the member level. -/
def applicableRoles (rewards : List (Nat × RoleId)) (L : Nat) : List (Nat × RoleId) :=
  rewards.filter (fun p => decide (p.1 ≤ L))

/-- `update_rewards`: the configured rewards whose level threshold
exceeds the member level. -/
def nonApplicableRoles (rewards : List (Nat × RoleId)) (L : Nat) : List (Nat × RoleId) :=
  rewards.filter (fun p => !(decide (p.1 ≤ L)))

/-- The topmost-role scan of `update_rewards`: fold over the applicable
rewards keeping the first role whose level strictly exceeds the running
maximum (which starts at -1). -/
def topmostAux : List (Nat × RoleId) → Int → Option RoleId → Option RoleId
  | [], _, top => top
  | (lvl, rid) :: rest, highest, top =>
    if highest < (lvl : Int) then topmostAux rest (lvl : Int) (some rid)
    else topmostAux rest highest top

/-- `topmost_role_id` as computed by `update_rewards`. -/
def topmostRoleId (app : List (Nat × RoleId)) : Option RoleId :=
  topmostAux app (-1) none

/-- `roles_to_add`: applicable rewards whose role exists in the guild, is
not yet held, and either the remove-previous policy is off or the role is
the topmost one. -/
def rolesToAdd (guildRoles memberRoles : List RoleId) (rewards : List (Nat × RoleId))
    (L : Nat) (removePrev : Bool) : List (Nat × RoleId) :=
  let app := applicableRoles rewards L
  let top := topmostRoleId app
  app.filter (fun p =>
    decide (p.2 ∈ guildRoles) && !(decide (p.2 ∈ memberRoles))
      && (!removePrev || (some p.2 == top)))

/-- `roles_to_remove`: held applicable non-topmost roles under the
remove-previous policy, plus every held non-applicable role. -/
def rolesToRemove (guildRoles memberRoles : List RoleId) (rewards : List (Nat × RoleId))
    (L : Nat) (removePrev : Bool) : List (Nat × RoleId) :=
  let app := applicableRoles rewards L
  let top := topmostRoleId app
  app.filter (fun p =>
    decide (p.2 ∈ guildRoles) && decide (p.2 ∈ memberRoles)
      && removePrev && !(some p.2 == top))
  ++ (nonApplicableRoles rewards L).filter (fun p =>
    decide (p.2 ∈ guildRoles) && decide (p.2 ∈ memberRoles))

/-- Whether the member holds role `r` after `update_rewards` ran for
target level `L` and every add/remove API call succeeded: the adds are
applied first, then the removes. -/
def update_rewards_final (guildRoles memberRoles : List RoleId)
    (rewards : List (Nat × RoleId)) (L : Nat) (removePrev : Bool) (r : RoleId) : Bool :=
  (decide (r ∈ memberRoles) || decide (r ∈ (rolesToAdd guildRoles memberRoles rewards L removePrev).map Prod.snd))
    && !(decide (r ∈ (rolesToRemove guildRoles memberRoles rewards L removePrev).map Prod.snd))

/-! Invariants and supporting lemmas. -/

/-- The level column caches the spec formula applied to the exp column. -/
def rowInv (r : UserRow) : Prop := r.level = levelSpec r.exp

instance (r : UserRow) : Decidable (rowInv r) := by
  unfold rowInv; infer_instance

/-- Every row of the table satisfies `rowInv`. -/
def dbLevelInv (db : Db) : Prop := ∀ e ∈ db, rowInv e.2

instance (db : Db) : Decidable (dbLevelInv db) := by
  unfold dbLevelInv; exact List.decidableBAll _ db

/-- No row of the table stores negative points. -/
def dbNonneg (db : Db) : Prop := ∀ e ∈ db, 0 ≤ e.2.exp

instance (db : Db) : Decidable (dbNonneg db) := by
  unfold dbNonneg; exact List.decidableBAll _ db

theorem dbSet_subset (db : Db) (g : GuildId) (u : UserId) (r : UserRow) :
    ∀ e ∈ dbSet db g u r, e = ((g, u), r) ∨ e ∈ db := by
  induction db with
  | nil => intro e he; simp only [dbSet, List.mem_singleton] at he; exact Or.inl he
  | cons e0 rest ih =>
    intro e he
    simp only [dbSet] at he
    by_cases h : e0.1 == (g, u)
    · rw [if_pos h] at he
      rcases List.mem_cons.mp he with h1 | h1
      · exact Or.inl h1
      · exact Or.inr (List.mem_cons_of_mem _ h1)
    · rw [if_neg h] at he
      rcases List.mem_cons.mp he with h1 | h1
      · exact Or.inr (h1 ▸ List.mem_cons_self _ _)
      · rcases ih e h1 with h2 | h2
        · exact Or.inl h2
        · exact Or.inr (List.mem_cons_of_mem _ h2)

theorem dbLevelInv_dbSet {db : Db} {g : GuildId} {u : UserId} {r : UserRow}
    (hdb : dbLevelInv db) (hr : rowInv r) : dbLevelInv (dbSet db g u r) := by
  intro e he
  rcases dbSet_subset db g u r e he with h | h
  · rw [h]; exact hr
  · exact hdb e h

theorem dbNonneg_dbSet {db : Db} {g : GuildId} {u : UserId} {r : UserRow}
    (hdb : dbNonneg db) (hr : 0 ≤ r.exp) : dbNonneg (dbSet db g u r) := by
  intro e he
  rcases dbSet_subset db g u r e he with h | h
  · rw [h]; exact hr
  · exact hdb e h

theorem rowInv_update_user_exp (row : UserRow) (expGain : Int) (gainType : ExpGainType) :
    rowInv (update_user_exp row expGain gainType) := by
  unfold rowInv update_user_exp
  cases gainType <;> simp [calculate_level_eq_levelSpec]

theorem update_user_exp_nonneg (row : UserRow) (expGain : Int) (gainType : ExpGainType) :
    0 ≤ (update_user_exp row expGain gainType).exp := by
  unfold update_user_exp
  cases gainType <;> simp

theorem voiceChannelTick_db (cfg : Config) (db : Db) (ch : VoiceChannel) :
    (voiceChannelTick cfg db ch).1 = db := by
  unfold voiceChannelTick
  split
  · rfl
  · split <;> rfl

theorem voiceChannelsTick_db (cfg : Config) (chs : List VoiceChannel) (db : Db) :
    (voiceChannelsTick cfg db chs).1 = db := by
  induction chs generalizing db with
  | nil => rfl
  | cons ch rest ih =>
    simp only [voiceChannelsTick]
    rcases h : voiceChannelTick cfg db ch with ⟨db2, oe⟩
    have hdb2 : db2 = db := by
      have := voiceChannelTick_db cfg db ch
      rw [h] at this; exact this
    cases oe with
    | some e => simpa using hdb2
    | none => simpa [hdb2] using ih db2 |>.trans hdb2

theorem voiceGuildsTick_db (cfg : Config) (guilds : List Guild) (db : Db) :
    (voiceGuildsTick cfg db guilds).1 = db := by
  induction guilds generalizing db with
  | nil => rfl
  | cons gd rest ih =>
    simp only [voiceGuildsTick]
    rcases h : voiceChannelsTick cfg db gd.voiceChannels with ⟨db2, oe⟩
    have hdb2 : db2 = db := by
      have := voiceChannelsTick_db cfg gd.voiceChannels db
      rw [h] at this; exact this
    cases oe with
    | some e => simpa using hdb2
    | none => simpa [hdb2] using ih db2 |>.trans hdb2

theorem voice_exp_task_db (s : ModuleState) (guilds : List Guild) :
    (voice_exp_task s guilds).1 = s.db := by
  unfold voice_exp_task
  split
  · rfl
  · exact voiceGuildsTick_db s.cfg guilds s.db

/-- Claim C1: after every points-mutating operation — message EXP gain,
voice EXP gain, admin add/remove/set (and activity reset) — every stored
level equals `floor(sqrt(points / 75))` when `points ≥ 75` and 0
otherwise (`levelSpec`), assuming the table satisfied that invariant
before. -/
theorem level_cache_invariant (s : ModuleState) (hdb : dbLevelInv s.db) :
    (∀ row expGain gainType, rowInv (update_user_exp row expGain gainType))
    ∧ (∀ bot hg g u roles ch now, dbLevelInv (on_message s bot hg g u roles ch now).db)
    ∧ (∀ adm g u m, dbLevelInv (add_exp adm g u m s).2.db)
    ∧ (∀ adm g u m, dbLevelInv (remove_exp adm g u m s).2.db)
    ∧ (∀ adm g u m, dbLevelInv (set_exp adm g u m s).2.db)
    ∧ (∀ adm g u mo vo, dbLevelInv (set_activity adm g u mo vo s).2.db)
    ∧ (∀ guilds, dbLevelInv (voice_exp_task s guilds).1) := by
  refine ⟨rowInv_update_user_exp, ?_, ?_, ?_, ?_, ?_, ?_⟩
  · intro bot hg g u roles ch now
    unfold on_message
    repeat' split
    all_goals first
      | exact hdb
      | exact dbLevelInv_dbSet hdb (rowInv_update_user_exp _ _ _)
  · intro adm g u m
    unfold add_exp
    repeat' split
    all_goals first
      | exact hdb
      | exact dbLevelInv_dbSet hdb (rowInv_update_user_exp _ _ _)
  · intro adm g u m
    unfold remove_exp
    dsimp only
    repeat' split
    all_goals first
      | exact hdb
      | exact dbLevelInv_dbSet hdb (rowInv_update_user_exp _ _ _)
  · intro adm g u m
    unfold set_exp
    repeat' split
    all_goals first
      | exact hdb
      | exact dbLevelInv_dbSet hdb (calculate_level_eq_levelSpec m)
  · intro adm g u mo vo
    unfold set_activity
    dsimp only
    repeat' split
    all_goals first
      | exact hdb
      | exact dbLevelInv_dbSet hdb (calculate_level_eq_levelSpec _)
  · intro guilds
    rw [voice_exp_task_db]
    exact hdb

def cfgC1 : Config := ⟨10, 5, 60, [42], [], [], true⟩

def stateC1 : ModuleState := ⟨true, [((1, 1), ⟨50, 0, 3, 1, 0⟩)], [], cfgC1⟩

/-- Witness for claim C1 at a concrete state. -/
theorem level_cache_invariant_witness :
    dbLevelInv stateC1.db ∧ dbLevelInv (add_exp true 1 1 20 stateC1).2.db :=
  ⟨by decide, (level_cache_invariant stateC1 (by decide)).2.2.1 true 1 1 20⟩

/-- Claim C8: an admin EXP removal exceeding the current balance is
rejected before any write (state unchanged), and no operation leaves a
stored exp negative (given non-negative configured per-message and
per-voice-minute rates, which the settings command enforces). -/
theorem points_never_negative (s : ModuleState) (hdb : dbNonneg s.db)
    (hepm : 0 ≤ s.cfg.expPerMessage) (hepv : 0 ≤ s.cfg.expPerVoiceMinute) :
    (∀ g u m, s.dbReady = true → 0 < m → (dbGet s.db g u).exp < m →
      remove_exp true g u m s = (.failure notEnoughExpMsg, s))
    ∧ (∀ adm g u m, dbNonneg (add_exp adm g u m s).2.db)
    ∧ (∀ adm g u m, dbNonneg (remove_exp adm g u m s).2.db)
    ∧ (∀ adm g u m, dbNonneg (set_exp adm g u m s).2.db)
    ∧ (∀ adm g u mo vo, dbNonneg (set_activity adm g u mo vo s).2.db)
    ∧ (∀ bot hg g u roles ch now, dbNonneg (on_message s bot hg g u roles ch now).db)
    ∧ (∀ guilds, dbNonneg (voice_exp_task s guilds).1) := by
  refine ⟨?_, ?_, ?_, ?_, ?_, ?_, ?_⟩
  · intro g u m hready h0 hlt
    unfold remove_exp
    rw [hready]
    dsimp only
    repeat' split
    all_goals first | rfl | (exfalso; omega) | (exfalso; simp_all)
  · intro adm g u m
    unfold add_exp
    dsimp only
    repeat' split
    all_goals first
      | exact hdb
      | exact dbNonneg_dbSet hdb (update_user_exp_nonneg _ _ _)
  · intro adm g u m
    unfold remove_exp
    dsimp only
    repeat' split
    all_goals first
      | exact hdb
      | exact dbNonneg_dbSet hdb (update_user_exp_nonneg _ _ _)
  · intro adm g u m
    unfold set_exp
    dsimp only
    repeat' split
    all_goals first
      | exact hdb
      | (apply dbNonneg_dbSet hdb; dsimp only; omega)
  · intro adm g u mo vo
    unfold set_activity
    dsimp only
    repeat' split
    all_goals first
      | exact hdb
      | (apply dbNonneg_dbSet hdb
         dsimp only [calculate_exp_from_activity]
         exact add_nonneg (mul_nonneg (by omega) hepm) (mul_nonneg (by omega) hepv))
  · intro bot hg g u roles ch now
    unfold on_message
    dsimp only
    repeat' split
    all_goals first
      | exact hdb
      | exact dbNonneg_dbSet hdb (update_user_exp_nonneg _ _ _)
  · intro guilds
    rw [voice_exp_task_db]
    exact hdb

def cfgC8 : Config := ⟨10, 5, 60, [], [], [], true⟩

def stateC8 : ModuleState := ⟨true, [((1, 9), ⟨30, 0, 2, 0, 0⟩)], [], cfgC8⟩

/-- Witness for claim C8 at a concrete state: removing 40 EXP from a user
holding 30 is rejected with the state unchanged, and stored points stay
non-negative. -/
theorem points_never_negative_witness :
    dbNonneg stateC8.db
    ∧ remove_exp true 1 9 40 stateC8 = (.failure notEnoughExpMsg, stateC8)
    ∧ dbNonneg (add_exp true 1 9 40 stateC8).2.db :=
  ⟨by decide,
   (points_never_negative stateC8 (by decide) (by decide) (by decide)).1 1 9 40
     (by decide) (by decide) (by decide),
   (points_never_negative stateC8 (by decide) (by decide) (by decide)).2.1 true 1 9 40⟩

/-- Claim C6: a message in a blacklisted channel, or sent while the
author is within the cooldown window of their last rewarded message,
leaves the whole module state — in particular the author's points, level
and message count — unchanged. -/
theorem message_blacklist_or_cooldown_unchanged (s : ModuleState) (bot hg : Bool)
    (g : GuildId) (u : UserId) (roles : List RoleId) (ch : Nat) (now : Int)
    (h : ch ∈ s.cfg.blacklistedChannels ∨ onCooldown s u now = true) :
    on_message s bot hg g u roles ch now = s := by
  unfold on_message
  repeat' split
  all_goals first | rfl | (rcases h with h1 | h1 <;> simp_all)

def cfgC6 : Config := ⟨10, 5, 60, [42], [], [], true⟩

def stateC6 : ModuleState := ⟨true, [((1, 7), ⟨80, 1, 4, 0, 0⟩)], [(7, 90)], cfgC6⟩

/-- Witness for claim C6: a message in blacklisted channel 42, and a
message 10 seconds after the last rewarded one (cooldown 60), both leave
the state unchanged. -/
theorem message_blacklist_or_cooldown_unchanged_witness :
    ((42 : Nat) ∈ stateC6.cfg.blacklistedChannels ∧ onCooldown stateC6 7 100 = true)
    ∧ on_message stateC6 false true 1 7 [] 42 100 = stateC6
    ∧ on_message stateC6 false true 1 7 [] 5 100 = stateC6 :=
  ⟨by decide,
   message_blacklist_or_cooldown_unchanged stateC6 false true 1 7 [] 42 100
     (Or.inl (by decide)),
   message_blacklist_or_cooldown_unchanged stateC6 false true 1 7 [] 5 100
     (Or.inr (by decide))⟩

/-- Claim C7 (amended): while `db_ready` is false, every store-backed
command (xp add / remove / set, xp-set-activity, xp-role-multiplier set)
replies with the fixed database-unavailable message and leaves the state
unchanged, and no points accrue from messages or voice ticks;
`toggle-remove-previous` is the exception — it never consults `db_ready`
(see the counterexample). -/
theorem store_unavailable_degrades (s : ModuleState) (hdown : s.dbReady = false) :
    (∀ g u m, add_exp true g u m s = (.failure dbUnavailableMsg, s))
    ∧ (∀ g u m, remove_exp true g u m s = (.failure dbUnavailableMsg, s))
    ∧ (∀ g u m, set_exp true g u m s = (.failure dbUnavailableMsg, s))
    ∧ (∀ g u mo vo, set_activity true g u mo vo s = (.failure dbUnavailableMsg, s))
    ∧ (∀ roleId mult, role_multiplier_set true roleId mult s = (.failure dbUnavailableMsg, s))
    ∧ (∀ bot hg g u roles ch now, on_message s bot hg g u roles ch now = s)
    ∧ (∀ guilds, voice_exp_task s guilds = (s.db, none)) := by
  refine ⟨?_, ?_, ?_, ?_, ?_, ?_, ?_⟩
  · intro g u m; simp [add_exp, hdown]
  · intro g u m; simp [remove_exp, hdown]
  · intro g u m; simp [set_exp, hdown]
  · intro g u mo vo; simp [set_activity, hdown]
  · intro roleId mult; simp [role_multiplier_set, hdown]
  · intro bot hg g u roles ch now
    unfold on_message
    rw [hdown]
    split <;> simp
  · intro guilds
    unfold voice_exp_task
    rw [hdown]
    simp

def cfgC7 : Config := ⟨10, 5, 60, [], [], [], true⟩

def stateC7 : ModuleState := ⟨false, [], [], cfgC7⟩

/-- Counterexample to claim C7 as stated: with the store unavailable,
`toggle-remove-previous` still performs its action (it flips the
remove-previous flag) and replies with a success message, not the
database-unavailable failure. -/
theorem toggle_remove_previous_db_down_counterexample :
    stateC7.dbReady = false
    ∧ (toggle_remove_previous true stateC7).2.cfg.removePreviousRewards = false
    ∧ (toggle_remove_previous true stateC7).1 ≠ CmdResponse.failure dbUnavailableMsg := by
  refine ⟨rfl, rfl, ?_⟩
  decide

/-- Witness for the amended claim C7 at a concrete unavailable state. -/
theorem store_unavailable_degrades_witness :
    stateC7.dbReady = false
    ∧ add_exp true 1 2 5 stateC7 = (.failure dbUnavailableMsg, stateC7)
    ∧ voice_exp_task stateC7 [] = (stateC7.db, none) :=
  ⟨by decide,
   (store_unavailable_degrades stateC7 (by decide)).1 1 2 5,
   (store_unavailable_degrades stateC7 (by decide)).2.2.2.2.2.2 []⟩

/-- Claim C10: invoking `xp-set-activity` with exactly one of the two
optional parameters omitted fails before any database mutation — the
state, hence the stored row, is unchanged — because Python raises
`TypeError` on `None < 0`; the omitted value is never defaulted to the
stored one. -/
theorem set_activity_one_omitted_fails (s : ModuleState) (adm : Bool)
    (g : GuildId) (u : UserId) :
    (∀ m : Int, (set_activity adm g u (some m) none s).2 = s)
    ∧ (∀ v : Int, (set_activity adm g u none (some v) s).2 = s)
    ∧ (∀ v : Int, adm = true → s.dbReady = true →
        (set_activity adm g u none (some v) s).1 = .raised noneComparisonTypeError)
    ∧ (∀ m : Int, adm = true → s.dbReady = true → 0 ≤ m →
        (set_activity adm g u (some m) none s).1 = .raised noneComparisonTypeError) := by
  refine ⟨?_, ?_, ?_, ?_⟩
  · intro m
    unfold set_activity
    repeat' split
    all_goals first | rfl | simp_all
  · intro v
    unfold set_activity
    repeat' split
    all_goals first | rfl | simp_all
  · intro v hadm hready
    subst hadm
    simp [set_activity, hready]
  · intro m hadm hready hm
    subst hadm
    simp [set_activity, hready, show ¬ m < 0 by omega]

def cfgC10 : Config := ⟨10, 5, 60, [], [], [], true⟩

def stateC10 : ModuleState := ⟨true, [((1, 2), ⟨20, 0, 1, 1, 0⟩)], [], cfgC10⟩

/-- Witness for claim C10: omitting `messages` (voice given as 5) raises
and leaves the state unchanged. -/
theorem set_activity_one_omitted_fails_witness :
    (set_activity true 1 2 none (some 5) stateC10).2 = stateC10
    ∧ (set_activity true 1 2 none (some 5) stateC10).1 = .raised noneComparisonTypeError :=
  ⟨(set_activity_one_omitted_fails stateC10 true 1 2).2.1 5,
   (set_activity_one_omitted_fails stateC10 true 1 2).2.2.1 5 rfl (by decide)⟩

def cfgC4 : Config := ⟨10, 5, 60, [], [], [], true⟩

def stateC4 : ModuleState :=
  ⟨true, [((1, 1), ⟨0, 0, 0, 0, 0⟩), ((1, 2), ⟨0, 0, 0, 0, 0⟩)], [], cfgC4⟩

def channelC4 : VoiceChannel := ⟨200, [⟨1, false, false, []⟩, ⟨2, false, false, []⟩]⟩

def guildC4 : Guild := ⟨1, [channelC4]⟩

/-- Claim C4 (code bug): a voice tick over a non-blacklisted channel
holding two active (non-bot, non-self-deafened) members does not add
`int(exp_per_voice_minute * multiplier)` to anyone, nor bump any
voice-minute counter: the call
`update_user_exp(member, final_exp, from_voice=True)` raises `TypeError`
(`update_user_exp` has no `from_voice` parameter), the task aborts, and
the table is returned exactly as it was. -/
theorem voice_tick_raises_type_error :
    2 ≤ (activeMembers channelC4).length
    ∧ voice_exp_task stateC4 [guildC4] = (stateC4.db, some fromVoiceTypeError) := by
  decide

/-- Claim C5: a voice tick never mutates the stored row (points,
voice minutes) of any member of a voice channel holding fewer than two
active members. -/
theorem voice_tick_skips_small_channels (s : ModuleState) (guilds : List Guild)
    (gd : Guild) (ch : VoiceChannel) (m : VoiceMember)
    (_hg : gd ∈ guilds) (_hch : ch ∈ gd.voiceChannels)
    (_hsmall : (activeMembers ch).length < 2) (_hm : m ∈ ch.members) :
    dbGet (voice_exp_task s guilds).1 gd.guildId m.userId
      = dbGet s.db gd.guildId m.userId := by
  rw [voice_exp_task_db]

def stateC5 : ModuleState := ⟨true, [((3, 5), ⟨10, 0, 0, 2, 0⟩)], [], cfgC4⟩

def memberC5 : VoiceMember := ⟨5, false, false, []⟩

def channelC5 : VoiceChannel := ⟨9, [⟨4, false, true, []⟩, memberC5]⟩

def guildC5 : Guild := ⟨3, [channelC5]⟩

/-- Witness for claim C5: a channel whose only two members include one
self-deafened one (one active member) leaves user 5 untouched. -/
theorem voice_tick_skips_small_channels_witness :
    (activeMembers channelC5).length < 2
    ∧ dbGet (voice_exp_task stateC5 [guildC5]).1 guildC5.guildId memberC5.userId
        = dbGet stateC5.db guildC5.guildId memberC5.userId :=
  ⟨by decide,
   voice_tick_skips_small_channels stateC5 [guildC5] guildC5 channelC5 memberC5
     (by decide) (by decide) (by decide) (by decide)⟩

def cfgC9 : Config := ⟨10, 5, 60, [], [], [], true⟩

def stateC9 : ModuleState := ⟨true, [], [], cfgC9⟩

/-- Claim C9 (code bug): after an admin configures role 123 with bonus
multiplier 0.5 through `role_multiplier_set` (which stores it under the
string key "123"), a rewarded message from a member holding role 123
earns `int(exp_per_message * 1.0) = 10` points, not the claimed
`int(exp_per_message * (1 + 0.5)) = 15`: `get_multiplier` looks the role
up under the integer key 123, which never matches the stored string key,
so configured multipliers are never applied. -/
theorem role_multiplier_key_mismatch :
    (role_multiplier_set true 123 (1/2 : Rat) stateC9).2.cfg.roleMultipliers
        = [(PyKey.str "123", (1/2 : Rat))]
    ∧ messageExpGain (role_multiplier_set true 123 (1/2 : Rat) stateC9).2.cfg [123] = 10
    ∧ claimedMessageGain 10 (1/2 : Rat) = 15 := by
  have htos : toString (123 : Nat) = "123" := by decide
  have hne : ¬ (PyKey.str "123" = PyKey.int 123) := by decide
  have hcfg : (role_multiplier_set true 123 (1/2 : Rat) stateC9).2.cfg
      = { cfgC9 with roleMultipliers := [(PyKey.str "123", (1/2 : Rat))] } := by
    norm_num [role_multiplier_set, stateC9, dictSet, htos]
  refine ⟨?_, ?_, ?_⟩
  · rw [hcfg]
  · rw [hcfg]
    norm_num [messageExpGain, get_multiplier, dictGet, pyInt, cfgC9, hne]
  · norm_num [claimedMessageGain, pyInt]

theorem mem_applicableRoles {rewards : List (Nat × RoleId)} {L : Nat} {p : Nat × RoleId} :
    p ∈ applicableRoles rewards L ↔ p ∈ rewards ∧ p.1 ≤ L := by
  simp [applicableRoles, List.mem_filter]

theorem mem_nonApplicableRoles {rewards : List (Nat × RoleId)} {L : Nat} {p : Nat × RoleId} :
    p ∈ nonApplicableRoles rewards L ↔ p ∈ rewards ∧ ¬ p.1 ≤ L := by
  simp [nonApplicableRoles, List.mem_filter]

theorem topmostAux_all_le (l : List (Nat × RoleId)) (h : Int) (t : Option RoleId)
    (H : ∀ p ∈ l, (p.1 : Int) ≤ h) : topmostAux l h t = t := by
  induction l generalizing h t with
  | nil => rfl
  | cons q rest ih =>
    obtain ⟨lvl, rid⟩ := q
    have hq : ((lvl : Nat) : Int) ≤ h := H (lvl, rid) (List.mem_cons_self _ _)
    simp only [topmostAux]
    rw [if_neg (by omega)]
    exact ih h t fun p hp => H p (List.mem_cons_of_mem _ hp)

theorem topmostAux_max (l : List (Nat × RoleId)) (h : Int) (t : Option RoleId)
    (H : ∃ p ∈ l, h < (p.1 : Int)) :
    ∃ q ∈ l, topmostAux l h t = some q.2 ∧ h < (q.1 : Int)
      ∧ ∀ p ∈ l, (p.1 : Int) ≤ h ∨ (p.1 : Int) ≤ (q.1 : Int) := by
  induction l generalizing h t with
  | nil => simp at H
  | cons a rest ih =>
    obtain ⟨lvl, rid⟩ := a
    by_cases hlt : h < (lvl : Int)
    · by_cases hex : ∃ p ∈ rest, (lvl : Int) < (p.1 : Int)
      · obtain ⟨q, hq, heq, hql, hmax⟩ := ih (lvl : Int) (some rid) hex
        refine ⟨q, List.mem_cons_of_mem _ hq, ?_, by omega, ?_⟩
        · simp only [topmostAux]
          rw [if_pos hlt]
          exact heq
        · intro p hp
          rcases List.mem_cons.mp hp with hp1 | hp1
          · right; rw [hp1]; omega
          · rcases hmax p hp1 with h1 | h1
            · right; omega
            · right; exact h1
      · push_neg at hex
        refine ⟨(lvl, rid), List.mem_cons_self _ _, ?_, hlt, ?_⟩
        · simp only [topmostAux]
          rw [if_pos hlt]
          exact topmostAux_all_le rest (lvl : Int) (some rid) hex
        · intro p hp
          rcases List.mem_cons.mp hp with hp1 | hp1
          · right; rw [hp1]
          · right; exact hex p hp1
    · obtain ⟨p0, hp0, hp0h⟩ := H
      have hp0rest : p0 ∈ rest := by
        rcases List.mem_cons.mp hp0 with h1 | h1
        · exfalso; rw [h1] at hp0h; exact hlt hp0h
        · exact h1
      obtain ⟨q, hq, heq, hql, hmax⟩ := ih h t ⟨p0, hp0rest, hp0h⟩
      refine ⟨q, List.mem_cons_of_mem _ hq, ?_, hql, ?_⟩
      · simp only [topmostAux]
        rw [if_neg hlt]
        exact heq
      · intro p hp
        rcases List.mem_cons.mp hp with hp1 | hp1
        · left; rw [hp1]; omega
        · exact hmax p hp1

theorem topmostRoleId_spec (app : List (Nat × RoleId)) (hne : app ≠ []) :
    ∃ q ∈ app, topmostRoleId app = some q.2 ∧ ∀ p ∈ app, p.1 ≤ q.1 := by
  have H : ∃ p ∈ app, (-1 : Int) < (p.1 : Int) := by
    cases app with
    | nil => exact absurd rfl hne
    | cons a rest => exact ⟨a, List.mem_cons_self _ _, by omega⟩
  obtain ⟨q, hq, heq, _, hmax⟩ := topmostAux_max app (-1) none H
  refine ⟨q, hq, heq, fun p hp => ?_⟩
  rcases hmax p hp with h1 | h1 <;> omega

theorem final_eq_true_iff (G M : List RoleId) (rewards : List (Nat × RoleId))
    (L : Nat) (rp : Bool) (r : RoleId) :
    update_rewards_final G M rewards L rp r = true
    ↔ ((r ∈ M ∨ r ∈ (rolesToAdd G M rewards L rp).map Prod.snd)
        ∧ r ∉ (rolesToRemove G M rewards L rp).map Prod.snd) := by
  simp [update_rewards_final]

theorem final_eq_false_iff (G M : List RoleId) (rewards : List (Nat × RoleId))
    (L : Nat) (rp : Bool) (r : RoleId) :
    update_rewards_final G M rewards L rp r = false
    ↔ ((r ∉ M ∧ r ∉ (rolesToAdd G M rewards L rp).map Prod.snd)
        ∨ r ∈ (rolesToRemove G M rewards L rp).map Prod.snd) := by
  rw [Bool.eq_false_iff, Ne, final_eq_true_iff]
  tauto

theorem mem_addIds (G M : List RoleId) (rewards : List (Nat × RoleId))
    (L : Nat) (rp : Bool) (r : RoleId) :
    r ∈ (rolesToAdd G M rewards L rp).map Prod.snd
    ↔ ∃ p ∈ applicableRoles rewards L, p.2 = r ∧ r ∈ G ∧ r ∉ M
        ∧ (rp = false ∨ some r = topmostRoleId (applicableRoles rewards L)) := by
  constructor
  · intro h
    obtain ⟨p, hp, hpr⟩ := List.mem_map.mp h
    obtain ⟨hpa, hcond⟩ := List.mem_filter.mp hp
    simp only [Bool.and_eq_true, Bool.or_eq_true, Bool.not_eq_true',
      decide_eq_true_eq, decide_eq_false_iff_not, beq_iff_eq] at hcond
    obtain ⟨⟨hG, hM⟩, hor⟩ := hcond
    subst hpr
    exact ⟨p, hpa, rfl, hG, hM, hor⟩
  · rintro ⟨p, hpa, rfl, hG, hM, hor⟩
    refine List.mem_map.mpr ⟨p, List.mem_filter.mpr ⟨hpa, ?_⟩, rfl⟩
    rcases hor with h | h <;>
      simp [hG, hM, h]

theorem mem_removeIds (G M : List RoleId) (rewards : List (Nat × RoleId))
    (L : Nat) (rp : Bool) (r : RoleId) :
    r ∈ (rolesToRemove G M rewards L rp).map Prod.snd
    ↔ (∃ p ∈ applicableRoles rewards L, p.2 = r ∧ r ∈ G ∧ r ∈ M ∧ rp = true
          ∧ ¬ some r = topmostRoleId (applicableRoles rewards L))
      ∨ (∃ p ∈ nonApplicableRoles rewards L, p.2 = r ∧ r ∈ G ∧ r ∈ M) := by
  unfold rolesToRemove
  rw [List.map_append, List.mem_append]
  constructor
  · rintro (h | h)
    · obtain ⟨p, hp, hpr⟩ := List.mem_map.mp h
      obtain ⟨hpa, hcond⟩ := List.mem_filter.mp hp
      simp only [Bool.and_eq_true, Bool.not_eq_true', decide_eq_true_eq,
        beq_eq_false_iff_ne, Ne] at hcond
      obtain ⟨⟨⟨hG, hM⟩, hrp⟩, hnt⟩ := hcond
      subst hpr
      exact Or.inl ⟨p, hpa, rfl, hG, hM, hrp, hnt⟩
    · obtain ⟨p, hp, hpr⟩ := List.mem_map.mp h
      obtain ⟨hpn, hcond⟩ := List.mem_filter.mp hp
      simp only [Bool.and_eq_true, decide_eq_true_eq] at hcond
      obtain ⟨hG, hM⟩ := hcond
      subst hpr
      exact Or.inr ⟨p, hpn, rfl, hG, hM⟩
  · rintro (⟨p, hpa, rfl, hG, hM, hrp, hnt⟩ | ⟨p, hpn, rfl, hG, hM⟩)
    · refine Or.inl (List.mem_map.mpr ⟨p, List.mem_filter.mpr ⟨hpa, ?_⟩, rfl⟩)
      simp [hG, hM, hrp, hnt]
    · refine Or.inr (List.mem_map.mpr ⟨p, List.mem_filter.mpr ⟨hpn, ?_⟩, rfl⟩)
      simp [hG, hM]

/-- Claim C3 (amended): assume every configured reward role exists in the
guild, every role add/remove call succeeds, no role id is configured at
more than one level threshold, and the configured thresholds are
pairwise distinct (they are keys of one dict).  Then after
`update_rewards` for target level `L`: every reward role with threshold
above `L` is not held; with remove-previous disabled the member holds
exactly the reward roles with threshold at most `L`; with remove-previous
enabled, if some threshold is at most `L` then the member holds the role
of the highest such threshold and no other reward role. -/
theorem update_rewards_reconciliation (guildRoles memberRoles : List RoleId)
    (rewards : List (Nat × RoleId)) (L : Nat) (removePrev : Bool)
    (hids : (rewards.map Prod.snd).Nodup)
    (hlvls : (rewards.map Prod.fst).Nodup)
    (hexist : ∀ p ∈ rewards, p.2 ∈ guildRoles) :
    (∀ p ∈ rewards, L < p.1 →
      update_rewards_final guildRoles memberRoles rewards L removePrev p.2 = false)
    ∧ (removePrev = false → ∀ p ∈ rewards, p.1 ≤ L →
      update_rewards_final guildRoles memberRoles rewards L removePrev p.2 = true)
    ∧ (removePrev = true → ∀ q ∈ rewards, q.1 ≤ L →
      (∀ p ∈ rewards, p.1 ≤ L → p.1 ≤ q.1) →
      (update_rewards_final guildRoles memberRoles rewards L removePrev q.2 = true
        ∧ ∀ p ∈ rewards, p.2 ≠ q.2 →
          update_rewards_final guildRoles memberRoles rewards L removePrev p.2 = false)) := by
  have inj : ∀ p ∈ rewards, ∀ q ∈ rewards, p.2 = q.2 → p = q :=
    fun p hp q hq h => List.inj_on_of_nodup_map hids hp hq h
  have injF : ∀ p ∈ rewards, ∀ q ∈ rewards, p.1 = q.1 → p = q :=
    fun p hp q hq h => List.inj_on_of_nodup_map hlvls hp hq h
  refine ⟨?_, ?_, ?_⟩
  · -- thresholds above L are never held afterwards
    intro p hp hLp
    rw [final_eq_false_iff]
    by_cases hM : p.2 ∈ memberRoles
    · right
      rw [mem_removeIds]
      exact Or.inr ⟨p, mem_nonApplicableRoles.mpr ⟨hp, by omega⟩, rfl, hexist p hp, hM⟩
    · left
      refine ⟨hM, ?_⟩
      rw [mem_addIds]
      rintro ⟨q, hqa, hqr, _, _, _⟩
      obtain ⟨hqmem, hqL⟩ := mem_applicableRoles.mp hqa
      have hqp : q = p := inj q hqmem p hp hqr
      rw [hqp] at hqL
      omega
  · -- remove-previous disabled: every applicable role is held
    intro hrp p hp hpL
    rw [final_eq_true_iff]
    constructor
    · by_cases hM : p.2 ∈ memberRoles
      · exact Or.inl hM
      · right
        rw [mem_addIds]
        exact ⟨p, mem_applicableRoles.mpr ⟨hp, hpL⟩, rfl, hexist p hp, hM, Or.inl hrp⟩
    · rw [mem_removeIds]
      rintro (⟨q, hqa, hqr, _, _, hrp', _⟩ | ⟨q, hqn, hqr, _, _⟩)
      · rw [hrp] at hrp'
        exact absurd hrp' (by simp)
      · obtain ⟨hqmem, hqL⟩ := mem_nonApplicableRoles.mp hqn
        have hqp : q = p := inj q hqmem p hp hqr
        rw [hqp] at hqL
        omega
  · -- remove-previous enabled: exactly the highest applicable role
    intro hrp q hq hqL hqmax
    have hqapp : q ∈ applicableRoles rewards L := mem_applicableRoles.mpr ⟨hq, hqL⟩
    have hne : applicableRoles rewards L ≠ [] := by
      intro h
      rw [h] at hqapp
      exact absurd hqapp (List.not_mem_nil _)
    obtain ⟨q', hq'app, htop, hq'max⟩ := topmostRoleId_spec (applicableRoles rewards L) hne
    obtain ⟨hq'mem, hq'L⟩ := mem_applicableRoles.mp hq'app
    have h1 : q'.1 ≤ q.1 := hqmax q' hq'mem hq'L
    have h2 : q.1 ≤ q'.1 := hq'max q hqapp
    have heqq : q' = q := injF q' hq'mem q hq (by omega)
    rw [heqq] at htop
    constructor
    · rw [final_eq_true_iff]
      constructor
      · by_cases hM : q.2 ∈ memberRoles
        · exact Or.inl hM
        · right
          rw [mem_addIds]
          exact ⟨q, hqapp, rfl, hexist q hq, hM, Or.inr htop.symm⟩
      · rw [mem_removeIds]
        rintro (⟨p, hpa, hpr, _, _, _, hnt⟩ | ⟨p, hpn, hpr, _, _⟩)
        · exact hnt htop.symm
        · obtain ⟨hpmem, hpL⟩ := mem_nonApplicableRoles.mp hpn
          have hpq : p = q := inj p hpmem q hq hpr
          rw [hpq] at hpL
          omega
    · intro p hp hpq
      rw [final_eq_false_iff]
      by_cases hpL : p.1 ≤ L
      · have hpapp : p ∈ applicableRoles rewards L := mem_applicableRoles.mpr ⟨hp, hpL⟩
        by_cases hM : p.2 ∈ memberRoles
        · right
          rw [mem_removeIds]
          refine Or.inl ⟨p, hpapp, rfl, hexist p hp, hM, hrp, ?_⟩
          intro hsome
          rw [htop] at hsome
          exact hpq (Option.some.inj hsome)
        · left
          refine ⟨hM, ?_⟩
          rw [mem_addIds]
          rintro ⟨p', hp'a, hp'r, _, _, hor⟩
          obtain ⟨hp'mem, _⟩ := mem_applicableRoles.mp hp'a
          have hp'p : p' = p := inj p' hp'mem p hp hp'r
          rcases hor with h | h
          · rw [hrp] at h
            exact absurd h (by simp)
          · rw [htop] at h
            exact hpq (Option.some.inj h)
      · by_cases hM : p.2 ∈ memberRoles
        · right
          rw [mem_removeIds]
          exact Or.inr ⟨p, mem_nonApplicableRoles.mpr ⟨hp, hpL⟩, rfl, hexist p hp, hM⟩
        · left
          refine ⟨hM, ?_⟩
          rw [mem_addIds]
          rintro ⟨p', hp'a, hp'r, _, _, _⟩
          obtain ⟨hp'mem, hp'L⟩ := mem_applicableRoles.mp hp'a
          have hp'p : p' = p := inj p' hp'mem p hp hp'r
          rw [hp'p] at hp'L
          omega

/-- Counterexample to claim C3 as stated: role 10 is configured at
thresholds 2 and 8; the guild has role 10, the member holds role 10, the
target level is 5, remove-previous is enabled, and every call succeeds.
Threshold 2 qualifies (2 ≤ 5) and is the highest qualifying threshold,
so the claim requires the member to end up holding role 10 — but
`update_rewards` removes it (the non-applicable threshold-8 entry puts
role 10 on the removal list), leaving the member with no reward role. -/
theorem update_rewards_duplicate_role_counterexample :
    ((2, 10) ∈ ([(2, 10), (8, 10)] : List (Nat × RoleId)) ∧ (2 : Nat) ≤ 5)
    ∧ update_rewards_final [10] [10] [(2, 10), (8, 10)] 5 true 10 = false
    ∧ update_rewards_final [10] [10] [(2, 10), (8, 10)] 5 false 10 = false := by
  decide

/-- Witness for the amended claim C3 at a concrete configuration:
thresholds 2 and 4 with distinct roles 10 and 11, member holds role 10,
target level 5, remove-previous enabled: the member ends up holding
exactly role 11 (the highest applicable threshold). -/
theorem update_rewards_reconciliation_witness :
    update_rewards_final [10, 11] [10] [(2, 10), (4, 11)] 5 true 11 = true
    ∧ update_rewards_final [10, 11] [10] [(2, 10), (4, 11)] 5 true 10 = false :=
  ⟨((update_rewards_reconciliation [10, 11] [10] [(2, 10), (4, 11)] 5 true
      (by decide) (by decide) (by decide)).2.2 rfl (4, 11) (by decide) (by decide)
      (by decide)).1,
   ((update_rewards_reconciliation [10, 11] [10] [(2, 10), (4, 11)] 5 true
      (by decide) (by decide) (by decide)).2.2 rfl (4, 11) (by decide) (by decide)
      (by decide)).2 (2, 10) (by decide) (by decide)⟩

end Levels
